import Mathlib

/-!
# Radiogram recorder: reducer and effect-apply hook

A shallow embedding of `src/components/audio/Recorder/Recorder.js`:

* `reducer` (lines 139-164), the pure state transition function;
* the effect-apply `useEffect` (lines 59-77), as `applyFx`;
* the click handlers `onRecClick` (lines 79-91) and `onReverseClick`
  (lines 97-101), together with the React rule that re-runs the hook when
  `state.fx` is a new object.

JavaScript values are embedded as `JsVal`; an object is the list of its own
enumerable properties, a later binding of a key shadowing an earlier one.
Numbers are only stored and tested for truthiness, never computed with, so
they are embedded as integers.
-/

namespace Radiogram

/-! ## JavaScript values -/

/-- The JavaScript values that flow through the recorder: the primitives,
`Blob` handles returned by the capture driver, and plain objects. -/
inductive JsVal where
  | undefined
  | null
  | bool (b : Bool)
  | num (n : Int)
  | blob (id : Nat)
  | obj (props : List (String × JsVal))

namespace JsVal

instance : Inhabited JsVal := ⟨JsVal.undefined⟩

/-- JavaScript truthiness (`if (v)`). -/
def truthy : JsVal → Bool
  | undefined => false
  | null => false
  | bool b => b
  | num n => n != 0
  | blob _ => true
  | obj _ => true

/-- The own enumerable properties copied by an object spread `...v`:
the bindings of a plain object, nothing for `undefined`, `null`, a boolean,
a number or a `Blob`. -/
def ownProps : JsVal → List (String × JsVal)
  | obj ps => ps
  | _ => []

/-- Logical not, `!v`. -/
def not (v : JsVal) : JsVal := bool (!v.truthy)

end JsVal

/-- The bindings of a plain object, in insertion order. -/
abbrev JsObj := List (String × JsVal)

namespace JsObj

/-- The binding of key `k`, if the object has one (the last one written). -/
def find? (k : String) : JsObj → Option JsVal
  | [] => none
  | (k', v) :: rest =>
    match find? k rest with
    | some w => some w
    | none => if k' = k then some v else none

/-- Property read `o.k`: `undefined` when the key is absent. -/
def get (k : String) (o : JsObj) : JsVal := (find? k o).getD JsVal.undefined

/-- Whether the object has own property `k`. -/
def has (k : String) (o : JsObj) : Bool := (find? k o).isSome

/-- Property definition `o[k] = v` as performed by a spread: an existing key
keeps its position and takes the new value, a new key is appended. -/
def set (k : String) (v : JsVal) (o : JsObj) : JsObj :=
  if has k o then o.map (fun kv => if kv.1 = k then (kv.1, v) else kv)
  else o ++ [(k, v)]

/-- Object spread `{ ...target, ...src }`: the properties of `src` are defined
on a copy of `target` one after the other. -/
def spread (target : JsObj) (src : List (String × JsVal)) : JsObj :=
  src.foldl (fun acc kv => set kv.1 kv.2 acc) target

end JsObj

/-- Property read `v.k` on a truthy value: the binding of a plain object,
`undefined` on any other value of the embedding. -/
def JsVal.getProp (k : String) : JsVal → JsVal
  | JsVal.obj ps => JsObj.get k ps
  | _ => JsVal.undefined

/-! ## Recorder state and reducer -/

/-- Status of the recorder: `'idle' | 'recording' | 'complete'`. -/
inductive Status where
  | idle
  | recording
  | complete
  deriving DecidableEq, Repr

/-- The `RecorderState` typedef. `startTime` and `blob` are `none` while the
property is absent from the state object; `fx` is the `FxConfig` object. -/
structure RecorderState where
  status : Status
  startTime : Option Nat
  blob : Option JsVal
  fx : JsObj

/-- The constant `initialState`: `{ status: "idle", fx: {} }`. -/
def initialState : RecorderState :=
  { status := Status.idle, startTime := none, blob := none, fx := [] }

/-- A dispatched action `{ type, payload }`; `payload` is `undefined` when the
action object has no such property. -/
structure Action where
  type : String
  payload : JsVal

/-- The function `reducer(state, action)`. `now` is the value of `new Date()`
(milliseconds) read in the `"start"` branch. -/
def reducer (now : Nat) (state : RecorderState) (action : Action) : RecorderState :=
  if action.type = "start" then
    { state with status := Status.recording, startTime := some now }
  else if action.type = "stop" then
    { state with status := Status.complete, blob := some action.payload }
  else if action.type = "effect-change" then
    { state with fx := JsObj.spread (JsObj.spread [] state.fx) action.payload.ownProps }
  else
    state

/-- The action `{ type: "start" }`. -/
def Action.start : Action := { type := "start", payload := JsVal.undefined }

/-- The action `{ type: "stop", payload: blob }`. -/
def Action.stop (blob : JsVal) : Action := { type := "stop", payload := blob }

/-- The action `{ type: "effect-change", payload }`. -/
def Action.effectChange (payload : JsVal) : Action :=
  { type := "effect-change", payload := payload }

/-- Dispatching a list of actions in order. -/
def runActions (now : Nat) (s : RecorderState) (actions : List Action) : RecorderState :=
  actions.foldl (reducer now) s

/-- The left-to-right shallow merge by top-level key, in the words of the
specification: the value of key `k` is the whole value given by the last
payload that mentions `k`, and the value in `base` when no payload does. -/
def shallowMergeAt (k : String) (base : JsObj) (payloads : List JsVal) : Option JsVal :=
  match payloads.reverse.find? (fun p => JsObj.has k p.ownProps) with
  | some p => JsObj.find? k p.ownProps
  | none => JsObj.find? k base

/-! ## Audio graph and the effect-apply hook -/

/-- A `Tone.Player` as far as the component uses it: the blob whose object URL
it was constructed from and its settable `reverse` property. -/
structure Player where
  url : JsVal
  reverse : JsVal

/-- A `Tone.Phaser` as far as the component uses it: the three options passed
to its constructor, of which `frequency` is later changed by `set`. -/
structure PhaserNode where
  frequency : JsVal
  octaves : Nat
  baseFrequency : Nat

/-- An endpoint of a connection: a constructed player, a constructed phaser
(both named by their construction index) or the final destination. -/
inductive AudioNode where
  | player (i : Nat)
  | phaser (i : Nat)
  | destination
  deriving DecidableEq, Repr

/-- The graph state held by the component: every player and phaser node
constructed so far, the connections made between nodes, and the two refs
`player.current` and `phaser.current` (`none` while `undefined`). -/
structure Graph where
  players : List Player
  phasers : List PhaserNode
  connections : List (AudioNode × AudioNode)
  player : Option Nat
  phaser : Option Nat

/-- In-place update of the element at index `i`; no element, no change. -/
def updateAt {α : Type} (f : α → α) : Nat → List α → List α
  | _, [] => []
  | 0, x :: xs => f x :: xs
  | i + 1, x :: xs => x :: updateAt f i xs

namespace Graph

/-- The graph right after mount: nothing constructed, both refs `undefined`. -/
def empty : Graph :=
  { players := [], phasers := [], connections := [], player := none, phaser := none }

/-- The player object behind `player.current`. -/
def currentPlayer (g : Graph) : Option Player :=
  g.player.bind (fun i => g.players.get? i)

/-- The phaser object behind `phaser.current`. -/
def currentPhaser (g : Graph) : Option PhaserNode :=
  g.phaser.bind (fun i => g.phasers.get? i)

/-- Whether an endpoint names a node that has been constructed. -/
def hasNode (g : Graph) : AudioNode → Bool
  | AudioNode.player i => decide (i < g.players.length)
  | AudioNode.phaser i => decide (i < g.phasers.length)
  | AudioNode.destination => true

/-- Every connection joins constructed nodes and both refs point at
constructed nodes. -/
def wellFormed (g : Graph) : Bool :=
  g.connections.all (fun e => g.hasNode e.1 && g.hasNode e.2)
    && (match g.player with | none => true | some i => decide (i < g.players.length))
    && (match g.phaser with | none => true | some i => decide (i < g.phasers.length))

/-- Number of connections from `src` to `dst`. -/
def edgeCount (g : Graph) (src dst : AudioNode) : Nat :=
  g.connections.count (src, dst)

end Graph

/-- The body of the effect-apply `useEffect` (lines 59-77) run with
`state.fx = fx`: with a player present, assign `fx.reverse` to its `reverse`
property; with `fx.phaser` truthy, either construct the phaser, connect it to
the destination, store it in `phaser.current` and connect the player into it,
or, when `phaser.current` is already set, only `set` its frequency. -/
def applyFx (fx : JsObj) (g : Graph) : Graph :=
  match g.player with
  | none => g
  | some pid =>
    let g1 : Graph :=
      { g with players := updateAt (fun p => { p with reverse := JsObj.get "reverse" fx }) pid g.players }
    if (JsObj.get "phaser" fx).truthy then
      match g1.phaser with
      | none =>
        let nid := g1.phasers.length
        { g1 with
          phasers := g1.phasers ++
            [{ frequency := (JsObj.get "phaser" fx).getProp "freq", octaves := 5,
               baseFrequency := 1000 }]
          connections := g1.connections ++
            [(AudioNode.phaser nid, AudioNode.destination),
             (AudioNode.player pid, AudioNode.phaser nid)]
          phaser := some nid }
      | some nid =>
        { g1 with
          phasers := updateAt
            (fun n => { n with frequency := (JsObj.get "phaser" fx).getProp "freq" }) nid g1.phasers }
    else g1

/-! ## The component: state, refs and handlers -/

/-- The mounted `Recorder` component: its reducer state and its graph. -/
structure Component where
  state : RecorderState
  graph : Graph

/-- The component after mount. The effect-apply hook has run once, with
`player.current` undefined, and so has done nothing. -/
def Component.mount : Component :=
  { state := initialState, graph := applyFx initialState.fx Graph.empty }

/-- The call `dispatch(action)` followed by the re-render. The effect-apply
hook has `[state.fx]` as dependencies, so it re-runs when `state.fx` is a new
object; `reducer` builds a new `fx` object in its `"effect-change"` branch and
passes the old one on in every other branch. -/
def dispatch (now : Nat) (action : Action) (c : Component) : Component :=
  let state := reducer now c.state action
  { state := state
    graph := if action.type = "effect-change" then applyFx state.fx c.graph else c.graph }

/-- The handler `onRecClick`. `blobId` names the `Blob` that
`await recorder.stop()` resolves to (used in the stop branch only) and
`defaultReverse` is the value of `reverse` on a freshly constructed
`Tone.Player`. -/
def onRecClick (now : Nat) (blobId : Nat) (defaultReverse : JsVal) (c : Component) : Component :=
  if c.state.status ≠ Status.recording then
    dispatch now Action.start c
  else
    let c1 := dispatch now (Action.stop (JsVal.blob blobId)) c
    let pid := c1.graph.players.length
    { c1 with
      graph :=
        { c1.graph with
          players := c1.graph.players ++ [{ url := JsVal.blob blobId, reverse := defaultReverse }]
          player := some pid
          connections := c1.graph.connections ++ [(AudioNode.player pid, AudioNode.destination)] } }

/-- The handler `onReverseClick`. -/
def onReverseClick (now : Nat) (c : Component) : Component :=
  dispatch now
    (Action.effectChange (JsVal.obj [("reverse", (JsObj.get "reverse" c.state.fx).not)])) c

/-- The handler `onPhaserFreqChange`, `value` being `e.target.value`. -/
def onPhaserFreqChange (now : Nat) (value : JsVal) (c : Component) : Component :=
  dispatch now
    (Action.effectChange (JsVal.obj [("phaser", JsVal.obj [("freq", value)])])) c

/-- States reachable from `initialState` by `start`, `stop` with a non-null
payload, and `effect-change` actions. -/
inductive Reachable : RecorderState → Prop where
  | init : Reachable initialState
  | start (now : Nat) (s : RecorderState) : Reachable s → Reachable (reducer now s Action.start)
  | stop (now : Nat) (s : RecorderState) (b : JsVal) :
      b ≠ JsVal.null → b ≠ JsVal.undefined → Reachable s →
      Reachable (reducer now s (Action.stop b))
  | effectChange (now : Nat) (s : RecorderState) (p : JsVal) :
      Reachable s → Reachable (reducer now s (Action.effectChange p))

/-- A session with a second recording: record and stop (blob 0), toggle
reverse on, set the phaser frequency to 800, then record and stop again
(blob 1). Fresh players have `reverse = false`. -/
def reRecordSession : Component :=
  onRecClick 50 1 (JsVal.bool false)
    (onRecClick 40 0 (JsVal.bool false)
      (onPhaserFreqChange 30 (JsVal.num 800)
        (onReverseClick 20
          (onRecClick 10 0 (JsVal.bool false)
            (onRecClick 0 0 (JsVal.bool false) Component.mount)))))

/-- A session in which a phaser is created for the first recording and the
playable handle is then replaced: record and stop (blob 0), set the phaser
frequency to 800, record and stop again (blob 1). -/
def phaserThenReRecord : Component :=
  onRecClick 40 1 (JsVal.bool false)
    (onRecClick 30 0 (JsVal.bool false)
      (onPhaserFreqChange 20 (JsVal.num 800)
        (onRecClick 10 0 (JsVal.bool false)
          (onRecClick 0 0 (JsVal.bool false) Component.mount))))

/-! ## Lemmas on objects -/

namespace JsObj

theorem find?_cons (k k' : String) (v : JsVal) (rest : JsObj) :
    find? k ((k', v) :: rest) =
      match find? k rest with
      | some w => some w
      | none => if k' = k then some v else none := rfl

theorem find?_append_single (k k' : String) (v : JsVal) (o : JsObj) :
    find? k (o ++ [(k', v)]) = if k' = k then some v else find? k o := by
  induction o with
  | nil => simp [find?]
  | cons hd tl ih =>
    obtain ⟨a, b⟩ := hd
    rw [List.cons_append, find?_cons, find?_cons, ih]
    by_cases h : k' = k
    · simp [h]
    · simp [h]

theorem find?_map_set (k k' : String) (v : JsVal) (o : JsObj) :
    find? k (o.map (fun kv => if kv.1 = k' then (kv.1, v) else kv)) =
      if k' = k then (if has k o then some v else none) else find? k o := by
  induction o with
  | nil => simp [find?, has]
  | cons hd tl ih =>
    obtain ⟨a, b⟩ := hd
    rw [List.map_cons]
    by_cases ha : a = k'
    · have e : (if (a, b).1 = k' then ((a, b).1, v) else (a, b)) = (a, v) := by simp [ha]
      rw [e, find?_cons, ih]
      unfold has
      rw [find?_cons]
      by_cases h : k' = k
      · cases hf : find? k tl <;> simp [h, ha]
      · cases hf : find? k tl <;> simp [h, ha]
    · have e : (if (a, b).1 = k' then ((a, b).1, v) else (a, b)) = (a, b) := by simp [ha]
      rw [e, find?_cons, ih]
      unfold has
      rw [find?_cons]
      by_cases h : k' = k
      · have hak : ¬ a = k := fun hh => ha (hh.trans h.symm)
        cases hf : find? k tl <;> simp [h, hak]
      · simp [h]

theorem find?_set (k k' : String) (v : JsVal) (o : JsObj) :
    find? k (set k' v o) = if k' = k then some v else find? k o := by
  unfold set
  by_cases hh : has k' o = true
  · rw [if_pos hh, find?_map_set]
    by_cases h : k' = k
    · subst h; simp [hh]
    · simp [h]
  · rw [if_neg hh, find?_append_single]

theorem find?_spread (k : String) (src : List (String × JsVal)) (target : JsObj) :
    find? k (spread target src) =
      match find? k src with
      | some v => some v
      | none => find? k target := by
  induction src generalizing target with
  | nil => simp [spread, find?]
  | cons hd tl ih =>
    obtain ⟨a, b⟩ := hd
    have h := ih (set a b target)
    simp only [spread, List.foldl_cons] at h ⊢
    rw [h, find?_set, find?_cons]
    cases find? k tl with
    | some w => rfl
    | none =>
      by_cases ha : a = k
      · simp [ha]
      · simp [ha]

theorem find?_spread_nil (k : String) (o : JsObj) : find? k (spread [] o) = find? k o := by
  rw [find?_spread]
  cases find? k o <;> simp [find?]

end JsObj

theorem reducer_effectChange_fx (now : Nat) (s : RecorderState) (p : JsVal) (k : String) :
    JsObj.find? k (reducer now s (Action.effectChange p)).fx =
      match JsObj.find? k p.ownProps with
      | some v => some v
      | none => JsObj.find? k s.fx := by
  have e : (reducer now s (Action.effectChange p)).fx =
      JsObj.spread (JsObj.spread [] s.fx) p.ownProps := by
    simp [reducer, Action.effectChange]
  rw [e, JsObj.find?_spread, JsObj.find?_spread_nil]

theorem shallowMergeAt_cons (k : String) (base : JsObj) (p : JsVal) (ps : List JsVal) :
    shallowMergeAt k base (p :: ps) =
      shallowMergeAt k (JsObj.spread (JsObj.spread [] base) p.ownProps) ps := by
  unfold shallowMergeAt
  rw [List.reverse_cons, List.find?_append]
  cases hq : ps.reverse.find? (fun p => JsObj.has k p.ownProps) with
  | some q => simp
  | none =>
    rw [JsObj.find?_spread, JsObj.find?_spread_nil]
    cases hp : JsObj.find? k p.ownProps with
    | some v => simp [JsObj.has, hp]
    | none => simp [JsObj.has, hp]

/-- C1: folding `reducer` over `effect-change` actions with payloads
`p1, ..., pn` yields a state whose `fx` is the left-to-right shallow merge of
`s.fx, p1, ..., pn` by top-level key: every key holds the whole value given by
the last payload that mentions it, and a key mentioned by no payload keeps its
binding from `s.fx`. -/
theorem reducer_effectChange_fold_shallowMerge (now : Nat) (s : RecorderState)
    (payloads : List JsVal) (k : String) :
    JsObj.find? k (runActions now s (payloads.map Action.effectChange)).fx =
      shallowMergeAt k s.fx payloads := by
  induction payloads generalizing s with
  | nil => simp [runActions, shallowMergeAt]
  | cons p ps ih =>
    have e : (reducer now s (Action.effectChange p)).fx =
        JsObj.spread (JsObj.spread [] s.fx) p.ownProps := by
      simp [reducer, Action.effectChange]
    have h := ih (reducer now s (Action.effectChange p))
    simp only [runActions, List.map_cons, List.foldl_cons] at h ⊢
    rw [h, shallowMergeAt_cons, e]

/-! ## The reducer: start, stop and unknown actions -/

theorem reducer_start (now : Nat) (s : RecorderState) :
    reducer now s Action.start =
      { s with status := Status.recording, startTime := some now } := by
  simp [reducer, Action.start]

theorem reducer_stop (now : Nat) (s : RecorderState) (b : JsVal) :
    reducer now s (Action.stop b) =
      { s with status := Status.complete, blob := some b } := by
  simp [reducer, Action.stop]

theorem reducer_effectChange (now : Nat) (s : RecorderState) (p : JsVal) :
    reducer now s (Action.effectChange p) =
      { s with fx := JsObj.spread (JsObj.spread [] s.fx) p.ownProps } := by
  simp [reducer, Action.effectChange]

/-- C10: for every state `s` and every action whose type is none of
`"start"`, `"stop"` and `"effect-change"`, `reducer` returns `s` itself, every
field included; `reducer` is a total function, so it does not fail. -/
theorem reducer_unknown_action (now : Nat) (s : RecorderState) (a : Action)
    (h1 : a.type ≠ "start") (h2 : a.type ≠ "stop") (h3 : a.type ≠ "effect-change") :
    reducer now s a = s := by
  simp [reducer, h1, h2, h3]

theorem reducer_unknown_action_witness :
    reducer 5
        { status := Status.complete, startTime := some 3, blob := some (JsVal.blob 1),
          fx := [("reverse", JsVal.bool true)] }
        { type := "reset", payload := JsVal.null } =
      { status := Status.complete, startTime := some 3, blob := some (JsVal.blob 1),
        fx := [("reverse", JsVal.bool true)] } :=
  reducer_unknown_action 5 _ { type := "reset", payload := JsVal.null }
    (by decide) (by decide) (by decide)

theorem reachable_complete_blob (t : RecorderState) (h : Reachable t) :
    t.status = Status.complete →
      ∃ c, t.blob = some c ∧ c ≠ JsVal.null ∧ c ≠ JsVal.undefined := by
  induction h with
  | init => intro h; simp [initialState] at h
  | start now s _ _ => intro h; simp [reducer_start] at h
  | stop now s b hb hb' _ _ => intro _; exact ⟨b, by simp [reducer_stop], hb, hb'⟩
  | effectChange now s p _ ih => intro h; simpa [reducer_effectChange] using ih (by simpa [reducer_effectChange] using h)

/-- C7: for every state `s` with status `recording` and every non-null buffer
`b`, `reducer(s, stop b)` has status `complete` and blob `b`; and in every
state reachable from `initialState` by start, stop (non-null payload) and
effect-change actions, status `complete` implies a non-null blob. -/
theorem reducer_stop_complete_blob (now : Nat) (s : RecorderState) (b : JsVal)
    (hs : s.status = Status.recording) (hb : b ≠ JsVal.null) (hb' : b ≠ JsVal.undefined) :
    (reducer now s (Action.stop b)).status = Status.complete ∧
    (reducer now s (Action.stop b)).blob = some b ∧
    (Reachable s → Reachable (reducer now s (Action.stop b))) ∧
    (∀ t, Reachable t → t.status = Status.complete →
      ∃ c, t.blob = some c ∧ c ≠ JsVal.null ∧ c ≠ JsVal.undefined) := by
  have _ := hs
  refine ⟨by simp [reducer_stop], by simp [reducer_stop], ?_, reachable_complete_blob⟩
  exact fun hr => Reachable.stop now s b hb hb' hr

theorem reducer_stop_complete_blob_witness :
    (reducer 9 (reducer 4 initialState Action.start) (Action.stop (JsVal.blob 7))).status
        = Status.complete ∧
    (reducer 9 (reducer 4 initialState Action.start) (Action.stop (JsVal.blob 7))).blob
        = some (JsVal.blob 7) :=
  have h := reducer_stop_complete_blob 9 (reducer 4 initialState Action.start) (JsVal.blob 7)
    (by simp [reducer_start]) (by simp) (by simp)
  ⟨h.1, h.2.1⟩

/-- C2, as stated, fails: `reducer` applies `stop` to the idle initial state
(status becomes `complete`) and applies `start` to a recording state (the
start time is overwritten). -/
theorem reducer_illegal_transition_changes_state :
    initialState.status ≠ Status.recording ∧
    reducer 0 initialState (Action.stop (JsVal.blob 0)) ≠ initialState ∧
    (reducer 0 initialState Action.start).status = Status.recording ∧
    reducer 1 (reducer 0 initialState Action.start) Action.start
      ≠ reducer 0 initialState Action.start := by
  refine ⟨by decide, ?_, by simp [reducer_start], ?_⟩
  · intro h
    have h2 := congrArg RecorderState.status h
    simp [reducer_stop, initialState] at h2
  · intro h
    have h2 := congrArg RecorderState.startTime h
    simp [reducer_start] at h2

/-- C2, amended: `reducer` applies `start` and `stop` from every status
(`stop b` gives status `complete` and blob `b`, `start` gives status
`recording` and the current start time, all other fields kept); the legality
gate is `onRecClick`, which dispatches `start` exactly when the status is not
`recording` and `stop` exactly when it is `recording`. -/
theorem reducer_unguarded_onRecClick_gates (now blobId : Nat) (d : JsVal) (c : Component)
    (b : JsVal) :
    reducer now c.state (Action.stop b) =
      { c.state with status := Status.complete, blob := some b } ∧
    reducer now c.state Action.start =
      { c.state with status := Status.recording, startTime := some now } ∧
    (onRecClick now blobId d c).state =
      (if c.state.status = Status.recording
        then reducer now c.state (Action.stop (JsVal.blob blobId))
        else reducer now c.state Action.start) := by
  refine ⟨reducer_stop _ _ _, reducer_start _ _, ?_⟩
  unfold onRecClick
  by_cases h : c.state.status = Status.recording
  · simp [h, dispatch]
  · simp [h, dispatch]

/-! ## The effect-apply hook -/

theorem updateAt_idem {α : Type} (f : α → α) (hf : ∀ x, f (f x) = f x) (i : Nat) (l : List α) :
    updateAt f i (updateAt f i l) = updateAt f i l := by
  induction l generalizing i with
  | nil => cases i <;> rfl
  | cons x xs ih =>
    cases i with
    | zero => simp [updateAt, hf]
    | succ n => simp [updateAt, ih]

theorem updateAt_length {α : Type} (f : α → α) (i : Nat) (l : List α) :
    (updateAt f i l).length = l.length := by
  induction l generalizing i with
  | nil => cases i <;> rfl
  | cons x xs ih =>
    cases i with
    | zero => simp [updateAt]
    | succ n => simp [updateAt, ih]

theorem updateAt_append_length {α : Type} (f : α → α) (l : List α) (x : α) :
    updateAt f l.length (l ++ [x]) = l ++ [f x] := by
  induction l with
  | nil => rfl
  | cons y ys ih => simp [updateAt, ih]

theorem applyFx_no_player (fx : JsObj) (g : Graph) (h : g.player = none) : applyFx fx g = g := by
  simp [applyFx, h]

theorem applyFx_no_phaser_key (fx : JsObj) (g : Graph) (pid : Nat) (h : g.player = some pid)
    (hp : (JsObj.get "phaser" fx).truthy = false) :
    applyFx fx g =
      { players := updateAt (fun p => { p with reverse := JsObj.get "reverse" fx }) pid g.players
        phasers := g.phasers
        connections := g.connections
        player := some pid
        phaser := g.phaser } := by
  simp [applyFx, h, hp]

theorem applyFx_first_activation (fx : JsObj) (g : Graph) (pid : Nat) (h : g.player = some pid)
    (hp : (JsObj.get "phaser" fx).truthy = true) (hn : g.phaser = none) :
    applyFx fx g =
      { players := updateAt (fun p => { p with reverse := JsObj.get "reverse" fx }) pid g.players
        phasers := g.phasers ++
          [{ frequency := (JsObj.get "phaser" fx).getProp "freq", octaves := 5,
             baseFrequency := 1000 }]
        connections := g.connections ++
          [(AudioNode.phaser g.phasers.length, AudioNode.destination),
           (AudioNode.player pid, AudioNode.phaser g.phasers.length)]
        player := some pid
        phaser := some g.phasers.length } := by
  simp [applyFx, h, hp, hn]

theorem applyFx_update (fx : JsObj) (g : Graph) (pid nid : Nat) (h : g.player = some pid)
    (hp : (JsObj.get "phaser" fx).truthy = true) (hn : g.phaser = some nid) :
    applyFx fx g =
      { players := updateAt (fun p => { p with reverse := JsObj.get "reverse" fx }) pid g.players
        phasers := updateAt
          (fun n => { n with frequency := (JsObj.get "phaser" fx).getProp "freq" }) nid g.phasers
        connections := g.connections
        player := some pid
        phaser := some nid } := by
  simp [applyFx, h, hp, hn]

/-- C5: applying an effect configuration is idempotent on the graph state:
for every graph state `g` and every configuration `fx`, applying `fx` twice
gives the same graph state as applying it once. -/
theorem applyFx_idempotent (fx : JsObj) (g : Graph) :
    applyFx fx (applyFx fx g) = applyFx fx g := by
  cases hpl : g.player with
  | none => rw [applyFx_no_player fx g hpl, applyFx_no_player fx g hpl]
  | some pid =>
    cases hp : (JsObj.get "phaser" fx).truthy with
    | false =>
      rw [applyFx_no_phaser_key fx g pid hpl hp,
        applyFx_no_phaser_key fx _ pid rfl hp]
      simp only [Graph.mk.injEq, and_true, true_and]
      apply updateAt_idem
      intro x; rfl
    | true =>
      cases hn : g.phaser with
      | none =>
        rw [applyFx_first_activation fx g pid hpl hp hn,
          applyFx_update fx _ pid g.phasers.length rfl hp rfl]
        simp only [Graph.mk.injEq, and_true, true_and]
        refine ⟨?_, updateAt_append_length _ _ _⟩
        apply updateAt_idem
        intro x; rfl
      | some nid =>
        rw [applyFx_update fx g pid nid hpl hp hn,
          applyFx_update fx _ pid nid rfl hp rfl]
        simp only [Graph.mk.injEq, and_true, true_and]
        constructor
        · apply updateAt_idem
          intro x; rfl
        · apply updateAt_idem
          intro x; rfl

theorem get_phaser_single (v : JsVal) : JsObj.get "phaser" [("phaser", v)] = v := by
  simp [JsObj.get, JsObj.find?]

theorem get_freq_single (v : JsVal) : JsObj.get "freq" [("freq", v)] = v := by
  simp [JsObj.get, JsObj.find?]

/-- C8: for every graph state with a playable handle and an empty phaser
entry, applying a configuration whose `phaser` is an object with `freq = f`
constructs exactly one phaser node with frequency `f`, 5 octaves and base
frequency 1000, connects it to the destination, connects the playable handle
into it, and stores it as the graph's phaser entry. -/
theorem applyFx_constructs_phaser (fx : JsObj) (g : Graph) (pid : Nat)
    (ph : List (String × JsVal)) (f : JsVal)
    (hpl : g.player = some pid) (hn : g.phaser = none)
    (hph : JsObj.get "phaser" fx = JsVal.obj ph) (hf : JsObj.get "freq" ph = f) :
    (applyFx fx g).phasers =
      g.phasers ++ [{ frequency := f, octaves := 5, baseFrequency := 1000 }] ∧
    (applyFx fx g).phasers.length = g.phasers.length + 1 ∧
    (applyFx fx g).connections =
      g.connections ++
        [(AudioNode.phaser g.phasers.length, AudioNode.destination),
         (AudioNode.player pid, AudioNode.phaser g.phasers.length)] ∧
    (applyFx fx g).phaser = some g.phasers.length ∧
    (applyFx fx g).currentPhaser =
      some { frequency := f, octaves := 5, baseFrequency := 1000 } ∧
    (applyFx fx g).player = some pid := by
  have ht : (JsObj.get "phaser" fx).truthy = true := by rw [hph]; rfl
  have hfreq : (JsObj.get "phaser" fx).getProp "freq" = f := by
    rw [hph]; simpa [JsVal.getProp] using hf
  rw [applyFx_first_activation fx g pid hpl ht hn, hfreq]
  simp [Graph.currentPhaser]

theorem applyFx_constructs_phaser_witness :
    (applyFx [("phaser", JsVal.obj [("freq", JsVal.num 800)])]
        { players := [{ url := JsVal.blob 0, reverse := JsVal.bool false }], phasers := [],
          connections := [(AudioNode.player 0, AudioNode.destination)],
          player := some 0, phaser := none }).phasers =
      [{ frequency := JsVal.num 800, octaves := 5, baseFrequency := 1000 }] :=
  (applyFx_constructs_phaser [("phaser", JsVal.obj [("freq", JsVal.num 800)])]
    { players := [{ url := JsVal.blob 0, reverse := JsVal.bool false }], phasers := [],
      connections := [(AudioNode.player 0, AudioNode.destination)],
      player := some 0, phaser := none }
    0 [("freq", JsVal.num 800)] (JsVal.num 800) rfl rfl
    (get_phaser_single _) (get_freq_single _)).1

theorem wellFormed_no_phaser_edge (g : Graph) (src : AudioNode) (i : Nat)
    (hwf : g.wellFormed = true) (hno : g.phasers = []) :
    g.connections.count (src, AudioNode.phaser i) = 0 := by
  rw [List.count_eq_zero]
  intro hmem
  simp only [Graph.wellFormed, Bool.and_eq_true, List.all_eq_true] at hwf
  have h := (hwf.1.1 _ hmem).2
  simp [Graph.hasNode, hno] at h

/-- C4: for every graph state with a playable handle and no phaser node, and
all frequencies `f1`, `f2`, applying `{phaser: {freq: f1}}` and then
`{phaser: {freq: f2}}` leaves exactly one phaser node, of frequency `f2`, and
exactly one connection from the playable handle to it; the second apply
constructs no node and adds no connection. -/
theorem applyFx_phaser_twice_single_node (g : Graph) (pid : Nat) (f1 f2 : JsVal)
    (hpl : g.player = some pid) (hn : g.phaser = none) (hno : g.phasers = [])
    (hwf : g.wellFormed = true) :
    (applyFx [("phaser", JsVal.obj [("freq", f2)])]
        (applyFx [("phaser", JsVal.obj [("freq", f1)])] g)).phasers =
      [{ frequency := f2, octaves := 5, baseFrequency := 1000 }] ∧
    (applyFx [("phaser", JsVal.obj [("freq", f2)])]
        (applyFx [("phaser", JsVal.obj [("freq", f1)])] g)).phaser = some 0 ∧
    (applyFx [("phaser", JsVal.obj [("freq", f2)])]
        (applyFx [("phaser", JsVal.obj [("freq", f1)])] g)).edgeCount
      (AudioNode.player pid) (AudioNode.phaser 0) = 1 ∧
    (applyFx [("phaser", JsVal.obj [("freq", f2)])]
        (applyFx [("phaser", JsVal.obj [("freq", f1)])] g)).connections =
      (applyFx [("phaser", JsVal.obj [("freq", f1)])] g).connections ∧
    (applyFx [("phaser", JsVal.obj [("freq", f2)])]
        (applyFx [("phaser", JsVal.obj [("freq", f1)])] g)).phasers.length =
      (applyFx [("phaser", JsVal.obj [("freq", f1)])] g).phasers.length := by
  have ht : ∀ f : JsVal,
      (JsObj.get "phaser" [("phaser", JsVal.obj [("freq", f)])]).truthy = true := by
    intro f; rw [get_phaser_single]; rfl
  have hfr : ∀ f : JsVal,
      (JsObj.get "phaser" [("phaser", JsVal.obj [("freq", f)])]).getProp "freq" = f := by
    intro f; rw [get_phaser_single]; simpa [JsVal.getProp] using get_freq_single f
  have hc := wellFormed_no_phaser_edge g (AudioNode.player pid) 0 hwf hno
  rw [applyFx_first_activation _ g pid hpl (ht f1) hn,
    applyFx_update _ _ pid g.phasers.length rfl (ht f2) rfl, hfr f1, hfr f2, hno]
  simp [Graph.edgeCount, updateAt, List.count_append, hc]

theorem applyFx_phaser_twice_single_node_witness :
    (applyFx [("phaser", JsVal.obj [("freq", JsVal.num 1600)])]
        (applyFx [("phaser", JsVal.obj [("freq", JsVal.num 800)])]
          { players := [{ url := JsVal.blob 0, reverse := JsVal.bool false }], phasers := [],
            connections := [(AudioNode.player 0, AudioNode.destination)],
            player := some 0, phaser := none })).phasers =
      [{ frequency := JsVal.num 1600, octaves := 5, baseFrequency := 1000 }] :=
  (applyFx_phaser_twice_single_node
    { players := [{ url := JsVal.blob 0, reverse := JsVal.bool false }], phasers := [],
      connections := [(AudioNode.player 0, AudioNode.destination)],
      player := some 0, phaser := none }
    0 (JsVal.num 800) (JsVal.num 1600) rfl rfl rfl (by decide)).1

/-! ## Well-formedness is an invariant of the component -/

theorem hasNode_mono (g g' : Graph) (n : AudioNode)
    (hp : g.players.length ≤ g'.players.length) (hq : g.phasers.length ≤ g'.phasers.length)
    (h : g.hasNode n = true) : g'.hasNode n = true := by
  cases n with
  | player i => simp only [Graph.hasNode, decide_eq_true_eq] at h ⊢; omega
  | phaser i => simp only [Graph.hasNode, decide_eq_true_eq] at h ⊢; omega
  | destination => rfl

theorem wellFormed_iff (g : Graph) :
    g.wellFormed = true ↔
      (∀ e ∈ g.connections, g.hasNode e.1 = true ∧ g.hasNode e.2 = true) ∧
      (∀ i, g.player = some i → i < g.players.length) ∧
      (∀ i, g.phaser = some i → i < g.phasers.length) := by
  unfold Graph.wellFormed
  cases hpl : g.player <;> cases hph : g.phaser <;>
    simp [List.all_eq_true, and_assoc]

theorem mount_wellFormed : Component.mount.graph.wellFormed = true := by decide

theorem applyFx_wellFormed (fx : JsObj) (g : Graph) (h : g.wellFormed = true) :
    (applyFx fx g).wellFormed = true := by
  rw [wellFormed_iff] at h
  obtain ⟨hc, hpl, hph⟩ := h
  cases hp : g.player with
  | none => rw [applyFx_no_player fx g hp, wellFormed_iff]; exact ⟨hc, hpl, hph⟩
  | some pid =>
    have hpid := hpl pid hp
    cases ht : (JsObj.get "phaser" fx).truthy with
    | false =>
      rw [applyFx_no_phaser_key fx g pid hp ht, wellFormed_iff]
      refine ⟨fun e he => ?_, ?_, ?_⟩
      · exact ⟨hasNode_mono g _ _ (by simp [updateAt_length]) (le_refl _) (hc e he).1,
          hasNode_mono g _ _ (by simp [updateAt_length]) (le_refl _) (hc e he).2⟩
      · intro i hi
        simp only [Option.some.injEq] at hi
        subst hi; simpa [updateAt_length] using hpid
      · exact hph
    | true =>
      cases hn : g.phaser with
      | none =>
        rw [applyFx_first_activation fx g pid hp ht hn, wellFormed_iff]
        refine ⟨fun e he => ?_, ?_, ?_⟩
        · simp only [List.mem_append, List.mem_cons, List.mem_singleton,
            List.not_mem_nil, or_false] at he
          rcases he with he | he | he
          · exact ⟨hasNode_mono g _ _ (by simp [updateAt_length]) (by simp) (hc e he).1,
              hasNode_mono g _ _ (by simp [updateAt_length]) (by simp) (hc e he).2⟩
          · subst he; simp [Graph.hasNode]
          · subst he; simpa [Graph.hasNode, updateAt_length] using hpid
        · intro i hi
          simp only [Option.some.injEq] at hi
          subst hi; simpa [updateAt_length] using hpid
        · intro i hi
          simp only [Option.some.injEq] at hi
          subst hi; simp
      | some nid =>
        rw [applyFx_update fx g pid nid hp ht hn, wellFormed_iff]
        refine ⟨fun e he => ?_, ?_, ?_⟩
        · exact ⟨hasNode_mono g _ _ (by simp [updateAt_length]) (by simp [updateAt_length])
              (hc e he).1,
            hasNode_mono g _ _ (by simp [updateAt_length]) (by simp [updateAt_length])
              (hc e he).2⟩
        · intro i hi
          simp only [Option.some.injEq] at hi
          subst hi; simpa [updateAt_length] using hpid
        · intro i hi
          simp only [Option.some.injEq] at hi
          rw [← hi]; simpa [updateAt_length] using hph nid hn

theorem dispatch_wellFormed (now : Nat) (a : Action) (c : Component)
    (h : c.graph.wellFormed = true) : (dispatch now a c).graph.wellFormed = true := by
  unfold dispatch
  by_cases ha : a.type = "effect-change"
  · simpa [ha] using applyFx_wellFormed _ _ h
  · simpa [ha] using h

theorem onRecClick_wellFormed (now blobId : Nat) (d : JsVal) (c : Component)
    (h : c.graph.wellFormed = true) :
    (onRecClick now blobId d c).graph.wellFormed = true := by
  unfold onRecClick
  by_cases hs : c.state.status = Status.recording
  · have hg : (dispatch now (Action.stop (JsVal.blob blobId)) c).graph = c.graph := by
      simp [dispatch, Action.stop]
    simp only [hs, ne_eq, not_true_eq_false, if_false, hg]
    rw [wellFormed_iff] at h ⊢
    obtain ⟨hc, _, hph⟩ := h
    refine ⟨fun e he => ?_, ?_, ?_⟩
    · simp only [List.mem_append, List.mem_singleton] at he
      rcases he with he | he
      · exact ⟨hasNode_mono c.graph _ _ (by simp) (le_refl _) (hc e he).1,
          hasNode_mono c.graph _ _ (by simp) (le_refl _) (hc e he).2⟩
      · subst he; simp [Graph.hasNode]
    · intro i hi
      simp only [Option.some.injEq] at hi
      subst hi; simp
    · exact hph
  · simpa [hs] using dispatch_wellFormed now Action.start c h

/-! ## Sessions -/

/-- C9: for every boolean `v`, running from the mounted component the intents
start, stop (any buffer) and effect-change `{reverse: v}`, the hook re-running
after the change of `fx`, ends with status `complete`, `fx.reverse = v` and the
playable handle's reverse flag equal to `v`; for `v = true` the last step is
what `onReverseClick` dispatches. -/
theorem session_reverse_scenario (v : Bool) (t1 t2 t3 b1 b2 : Nat) (d : JsVal) :
    (dispatch t3 (Action.effectChange (JsVal.obj [("reverse", JsVal.bool v)]))
      (onRecClick t2 b2 d (onRecClick t1 b1 d Component.mount))).state.status
        = Status.complete ∧
    JsObj.get "reverse"
      (dispatch t3 (Action.effectChange (JsVal.obj [("reverse", JsVal.bool v)]))
        (onRecClick t2 b2 d (onRecClick t1 b1 d Component.mount))).state.fx
        = JsVal.bool v ∧
    (dispatch t3 (Action.effectChange (JsVal.obj [("reverse", JsVal.bool v)]))
      (onRecClick t2 b2 d (onRecClick t1 b1 d Component.mount))).graph.currentPlayer
        = some { url := JsVal.blob b2, reverse := JsVal.bool v } ∧
    onReverseClick t3 (onRecClick t2 b2 d (onRecClick t1 b1 d Component.mount)) =
      dispatch t3 (Action.effectChange (JsVal.obj [("reverse", JsVal.bool true)]))
        (onRecClick t2 b2 d (onRecClick t1 b1 d Component.mount)) := by
  refine ⟨rfl, rfl, rfl, rfl⟩

/-- C3 at a failing input: after the second stop of `reRecordSession` the
state has `fx.reverse = true` and `fx.phaser = {freq: 800}`, yet the newly
built player has reverse flag `false` and its only connection goes to the
destination: the stop branch of `onRecClick` does not apply `fx` to it. -/
theorem reRecordSession_new_player_without_fx :
    reRecordSession.state.status = Status.complete ∧
    JsObj.get "reverse" reRecordSession.state.fx = JsVal.bool true ∧
    JsObj.get "phaser" reRecordSession.state.fx = JsVal.obj [("freq", JsVal.num 800)] ∧
    reRecordSession.graph.player = some 1 ∧
    reRecordSession.graph.currentPlayer =
      some { url := JsVal.blob 1, reverse := JsVal.bool false } ∧
    reRecordSession.graph.connections =
      [(AudioNode.player 0, AudioNode.destination),
       (AudioNode.phaser 0, AudioNode.destination),
       (AudioNode.player 0, AudioNode.phaser 0),
       (AudioNode.player 1, AudioNode.destination)] ∧
    reRecordSession.graph.edgeCount (AudioNode.player 1) (AudioNode.phaser 0) = 0 := by
  refine ⟨rfl, rfl, rfl, rfl, rfl, rfl, by decide⟩

/-- C6 at a failing input: after the second stop of `phaserThenReRecord` the
phaser entry still holds node 0, wired to the replaced player 0; the next
apply of a configuration with `phaser` present only sets that node's
frequency: no node is constructed and the new player 1 is connected to no
phaser. -/
theorem phaserThenReRecord_keeps_stale_phaser :
    phaserThenReRecord.graph.player = some 1 ∧
    phaserThenReRecord.graph.phaser = some 0 ∧
    phaserThenReRecord.graph.edgeCount (AudioNode.player 0) (AudioNode.phaser 0) = 1 ∧
    (onPhaserFreqChange 50 (JsVal.num 1600) phaserThenReRecord).graph.phasers =
      [{ frequency := JsVal.num 1600, octaves := 5, baseFrequency := 1000 }] ∧
    (onPhaserFreqChange 50 (JsVal.num 1600) phaserThenReRecord).graph.phaser = some 0 ∧
    (onPhaserFreqChange 50 (JsVal.num 1600) phaserThenReRecord).graph.connections =
      [(AudioNode.player 0, AudioNode.destination),
       (AudioNode.phaser 0, AudioNode.destination),
       (AudioNode.player 0, AudioNode.phaser 0),
       (AudioNode.player 1, AudioNode.destination)] ∧
    (onPhaserFreqChange 50 (JsVal.num 1600) phaserThenReRecord).graph.edgeCount
      (AudioNode.player 1) (AudioNode.phaser 0) = 0 := by
  refine ⟨rfl, rfl, by decide, rfl, rfl, rfl, by decide⟩

end Radiogram
